import Mathlib

/-!
# Verification of the order-payment reconciliation pipeline

Shallow embedding of the Razorpay payment confirmation flow of the
Ecommerce repository:

* the serverless handler (`supabase/functions/razorpay/index.ts`, the
  `serve` callback with its `create-order` and `verify-payment` actions),
  in particular `createHmacSha256` and the `verify-payment` branch, and
* the checkout client's gateway callback (`src/pages/Checkout.tsx`,
  the `handler` option passed to the Razorpay widget, which invokes
  `verify-payment` and then performs the inventory decrement).

Rows of the `payments`, `orders` and `product_variants` tables are
modelled as Lean structures holding the fields the flow reads or writes;
a supabase `update ... .eq(col, v)` is modelled as a map over the row
list that rewrites every row whose key column equals `v`, and
`select ... .eq(col, v).single()` as `List.find?`.  The HMAC-SHA256
primitive itself lives in the Deno/WebCrypto runtime, not in this
repository, so it is passed in as an abstract byte-level function
`hmac : String → String → List Nat`; the hex encoding and the
`orderId + "|" + paymentId` message construction are embedded concretely.
-/

namespace Ecommerce

/-- Status values stored in `payments.status` ('pending' → 'completed' |
'failed'). -/
inductive PaymentStatus where
  | pending
  | completed
  | failed
deriving DecidableEq

/-- Status values stored in `orders.status`. -/
inductive OrderStatus where
  | pending
  | confirmed
  | processing
  | shipped
  | delivered
  | cancelled
deriving DecidableEq

/-- A row of the `payments` table (fields the flow touches). -/
structure Payment where
  order_id : String
  user_id : String
  razorpay_order_id : String
  razorpay_payment_id : Option String
  razorpay_signature : Option String
  status : PaymentStatus
  error_message : Option String
deriving DecidableEq

/-- A row of the `orders` table (fields the flow touches). -/
structure Order where
  id : String
  user_id : String
  status : OrderStatus
  payment_method : Option String
deriving DecidableEq

/-- A row of the `product_variants` table (fields the flow touches).
`stock_quantity` is a JS number; the code only ever does integer
arithmetic on it, so it is modelled as `Int` (which in particular lets
the model express a negative written stock). -/
structure Variant where
  id : String
  stock_quantity : Int
deriving DecidableEq

/-- A row of the `order_items` table (fields the confirmation flow reads). -/
structure OrderItem where
  order_id : String
  variant_id : String
  quantity : Int
deriving DecidableEq

/-- The durable store the confirmation flow reads and writes. -/
structure Store where
  payments : List Payment
  orders : List Order
  variants : List Variant
deriving DecidableEq

/-- Supabase `update ... .eq(key, k)`: rewrite every row whose key equals
`k`, leave the others untouched. -/
def updateByKey {α : Type} (key : α → String) (k : String) (f : α → α)
    (l : List α) : List α :=
  l.map fun a => if key a == k then f a else a

/-- `select('stock_quantity').eq('id', vid).single()` on `product_variants`,
projected to the stock field. -/
def stockOf (st : Store) (vid : String) : Option Int :=
  (st.variants.find? fun v => v.id == vid).map Variant.stock_quantity

/-- The status of the first `orders` row with the given id. -/
def orderStatusOf (st : Store) (oid : String) : Option OrderStatus :=
  (st.orders.find? fun o => o.id == oid).map Order.status

/-- The status of the first `payments` row with the given gateway order id. -/
def paymentStatusOf (st : Store) (rid : String) : Option PaymentStatus :=
  (st.payments.find? fun p => p.razorpay_order_id == rid).map Payment.status

/-- One hex digit, lowercase, as produced by the Deno std hex encoder. -/
def hexDigit (n : Nat) : Char :=
  if n < 10 then Char.ofNat (48 + n) else Char.ofNat (87 + n)

/-- Hex encoding of a byte list, as produced by `hexEncode` of
`std/encoding/hex.ts` (two lowercase hex digits per byte). -/
def hexEncode (bs : List Nat) : String :=
  String.mk (bs.flatMap fun b => [hexDigit (b / 16 % 16), hexDigit (b % 16)])

/-- `createHmacSha256(secret, message)` of the edge function: sign
`message` with HMAC-SHA256 under `secret` and hex-encode the result.
The HMAC-SHA256 computation is `crypto.subtle` (WebCrypto, outside this
repository) and is abstracted as the byte-level function `hmac`; the
hex encoding of its output is embedded concretely. -/
def createHmacSha256 (hmac : String → String → List Nat)
    (secret message : String) : String :=
  hexEncode (hmac secret message)

/-- The signature check of the `verify-payment` action (§4.3's
`verify(secret, orderId, paymentId, signature)`): recompute
`createHmacSha256(secret, orderId + "|" + paymentId)` and compare to the
supplied signature with the JS `!==`/`===` string comparison. -/
def verifySignature (hmac : String → String → List Nat)
    (secret orderId paymentId signature : String) : Bool :=
  createHmacSha256 hmac secret (orderId ++ "|" ++ paymentId) == signature

/-- The update object of
`update({ status: 'failed', error_message: 'Signature verification failed' })`
applied to the matching payments rows on signature mismatch. -/
def markPaymentFailed (pay : Payment) : Payment :=
  { pay with status := PaymentStatus.failed
             error_message := some "Signature verification failed" }

/-- The update object of
`update({ razorpay_payment_id, razorpay_signature, status: 'completed' })`
applied to the matching payments rows on signature match. -/
def markPaymentCompleted (paymentId signature : String) (pay : Payment) :
    Payment :=
  { pay with razorpay_payment_id := some paymentId
             razorpay_signature := some signature
             status := PaymentStatus.completed }

/-- The update object of
`update({ status: 'confirmed', payment_method: 'razorpay' })` applied to
the matching orders rows on signature match. -/
def markOrderConfirmed (o : Order) : Order :=
  { o with status := OrderStatus.confirmed
           payment_method := some "razorpay" }

/-- The request body of a `verify-payment` call. -/
structure ConfirmPayload where
  razorpay_order_id : String
  razorpay_payment_id : String
  razorpay_signature : String
  orderId : String
deriving DecidableEq

/-- The JSON body and HTTP status the `verify-payment` action responds
with. -/
structure ConfirmResult where
  valid : Bool
  error : Option String
  message : Option String
  httpStatus : Nat
deriving DecidableEq

/-- Which of the two checked store writes of `verify-payment` fail on this
call.  The source receives each write's `{ error }`; a failing write
leaves the store unchanged and hands the handler that error. -/
structure StoreFaults where
  paymentUpdateError : Bool
  orderUpdateError : Bool
deriving DecidableEq

/-- Both store writes succeed. -/
def noFaults : StoreFaults := ⟨false, false⟩

/-- The `verify-payment` branch of the edge function (index.ts lines
123–181).  Recomputes the signature over
`razorpay_order_id + "|" + razorpay_payment_id`; on mismatch marks the
payments rows matching the gateway order id `failed` with
'Signature verification failed' and responds 400 `valid:false`; on match
updates the payments rows matching the gateway order id to `completed`
(storing payment id and signature), updates the orders rows matching
`orderId` to `confirmed` with payment method 'razorpay', and responds
`valid:true` — the source only `console.error`s the two update errors
(`updatePaymentError`, `updateOrderError`) and responds `valid:true`
regardless, which the `faults` parameter makes observable. -/
def verifyPayment (hmac : String → String → List Nat) (secret : String)
    (faults : StoreFaults) (p : ConfirmPayload) (st : Store) :
    Store × ConfirmResult :=
  let body := p.razorpay_order_id ++ "|" ++ p.razorpay_payment_id
  let expectedSignature := createHmacSha256 hmac secret body
  if expectedSignature != p.razorpay_signature then
    let st1 : Store :=
      { st with payments := (updateByKey Payment.razorpay_order_id
          p.razorpay_order_id markPaymentFailed st.payments) }
    (st1, { valid := false, error := some "Payment verification failed",
            message := none, httpStatus := 400 })
  else
    let st1 : Store :=
      if faults.paymentUpdateError then st else
        { st with payments := (updateByKey Payment.razorpay_order_id
            p.razorpay_order_id
            (markPaymentCompleted p.razorpay_payment_id p.razorpay_signature)
            st.payments) }
    let st2 : Store :=
      if faults.orderUpdateError then st1 else
        { st1 with orders := (updateByKey Order.id p.orderId
            markOrderConfirmed st1.orders) }
    (st2, { valid := true, error := none,
            message := some "Payment verified successfully",
            httpStatus := 200 })

/-- The authentication gate of the `serve` callback (index.ts lines
48–62) in front of `verify-payment`: `auth.getUser()` yielding no user
responds 401 'Unauthorized' without touching the store; with any
authenticated user the action runs — the user's identity is not compared
with anything in the `verify-payment` branch. -/
def serveConfirm (hmac : String → String → List Nat) (secret : String)
    (caller : Option String) (faults : StoreFaults) (p : ConfirmPayload)
    (st : Store) : Store × ConfirmResult :=
  match caller with
  | none => (st, { valid := false, error := some "Unauthorized",
                   message := none, httpStatus := 401 })
  | some _ => verifyPayment hmac secret faults p st

/-- One iteration of the inventory loop in the checkout client's gateway
callback (Checkout.tsx lines 154–167): read the variant's
`stock_quantity` (`.single()`), and if the variant was found write back
the read value minus the item's quantity.  No stock check is made before
the write. -/
def decrementItem (st : Store) (it : OrderItem) : Store :=
  match st.variants.find? (fun v => v.id == it.variant_id) with
  | none => st
  | some v =>
      { st with variants := (updateByKey Variant.id it.variant_id
          (fun w => { w with
            stock_quantity := v.stock_quantity - it.quantity })
          st.variants) }

/-- The whole inventory loop: one read-then-write per cart item. -/
def decrementItems (items : List OrderItem) (st : Store) : Store :=
  items.foldl decrementItem st

/-- The checkout client's gateway callback (Checkout.tsx lines 136–172):
invoke `verify-payment`; on failure stop (toast only); on success run the
inventory decrement loop over the cart items.  Returns the final store
and whether the callback reached the success path. -/
def handlerConfirm (hmac : String → String → List Nat) (secret : String)
    (faults : StoreFaults) (p : ConfirmPayload) (items : List OrderItem)
    (st : Store) : Store × Bool :=
  let res := verifyPayment hmac secret faults p st
  if !res.2.valid then (res.1, false)
  else (decrementItems items res.1, true)

/-- Cost model of the signature comparison
`expectedSignature !== razorpay_signature` (index.ts line 132): the JS
string (in)equality is a short-circuiting structural comparison, stopping
at the first differing character.  `scCompare` returns the comparison's
Boolean value (proved below to agree with the `==` used in
`verifyPayment`) together with the number of character comparisons
performed before stopping. -/
def scCompare : List Char → List Char → Bool × Nat
  | [], [] => (true, 0)
  | [], _ :: _ => (false, 0)
  | _ :: _, [] => (false, 0)
  | a :: as, b :: bs =>
      if a == b then
        let r := scCompare as bs
        (r.1, r.2 + 1)
      else (false, 1)

/-- Replace character `i` of a string: the "flipping any single
character of the signature" operation of §8's testable property. -/
def flipChar (s : String) (i : Nat) (c : Char) : String :=
  String.mk (s.data.set i c)

/-! ## A concrete scenario used by the counterexamples and witnesses -/

/-- A stand-in for the WebCrypto HMAC-SHA256 primitive, used to
instantiate the abstract `hmac` parameter on concrete inputs. -/
def dummyHmac : String → String → List Nat := fun _ _ => [18, 52]

def exSecret : String := "secret"

/-- Valid callback payload for the scenario: `dummyHmac` hex-encodes to
"1234", so the supplied signature matches the recomputed one. -/
def exPayload : ConfirmPayload :=
  ⟨"rzp1", "pay1", "1234", "o1"⟩

def exOrder : Order := ⟨"o1", "alice", OrderStatus.pending, none⟩

def exPayment : Payment :=
  ⟨"o1", "alice", "rzp1", none, none, PaymentStatus.pending, none⟩

def exVariant : Variant := ⟨"v1", 5⟩

def exItem : OrderItem := ⟨"o1", "v1", 2⟩

def exStore : Store := ⟨[exPayment], [exOrder], [exVariant]⟩

/-- A payments row carrying the scenario's gateway order id but
referencing a different order ("o2") than the callback's `orderId`. -/
def exPaymentOther : Payment :=
  ⟨"o2", "alice", "rzp1", none, none, PaymentStatus.pending, none⟩

def exStoreUnlinked : Store := ⟨[exPaymentOther], [exOrder], [exVariant]⟩

/-- The scenario store with no payments row at all. -/
def exStoreNoPayment : Store := ⟨[], [exOrder], [exVariant]⟩

/-- A variant whose stock (1) is below the scenario item's quantity (2). -/
def exVariantLow : Variant := ⟨"v1", 1⟩

def exStoreLow : Store := ⟨[exPayment], [exOrder], [exVariantLow]⟩

example : createHmacSha256 dummyHmac exSecret "rzp1|pay1" = "1234" := by
  decide

example :
    (handlerConfirm dummyHmac exSecret noFaults exPayload [exItem]
      exStore).2 = true := by decide

example :
    stockOf (handlerConfirm dummyHmac exSecret noFaults exPayload [exItem]
      exStore).1 "v1" = some 3 := by decide

/-! ## Lemmas about row lookup after keyed updates -/

theorem find?_updateByKey_ne {α : Type} (key : α → String) (k vid : String)
    (f : α → α) (hid : ∀ a, key (f a) = key a) (h : vid ≠ k) (l : List α) :
    (updateByKey key k f l).find? (fun a => key a == vid) =
      l.find? (fun a => key a == vid) := by
  induction l with
  | nil => rfl
  | cons a t ih =>
    show ((if key a == k then f a else a) ::
      updateByKey key k f t).find? (fun a => key a == vid) = _
    by_cases hak : key a = k
    · have hfa : (key (f a) == vid) = false := by
        rw [hid, hak]
        exact beq_eq_false_iff_ne.mpr fun he => h he.symm
      have ha2 : (key a == vid) = false := by
        rw [hak]
        exact beq_eq_false_iff_ne.mpr fun he => h he.symm
      rw [if_pos (beq_iff_eq.mpr hak)]
      rw [List.find?_cons_of_neg _ (by simp [hfa]),
        List.find?_cons_of_neg _ (by simp [ha2])]
      exact ih
    · rw [if_neg (by simp [hak])]
      cases hk2 : key a == vid
      · rw [List.find?_cons_of_neg _ (by simp [hk2]),
          List.find?_cons_of_neg _ (by simp [hk2])]
        exact ih
      · rw [List.find?_cons_of_pos _ (by simp [hk2]),
          List.find?_cons_of_pos _ (by simp [hk2])]

theorem find?_updateByKey_self {α : Type} (key : α → String) (k : String)
    (f : α → α) (hid : ∀ a, key (f a) = key a) (l : List α) :
    (updateByKey key k f l).find? (fun a => key a == k) =
      (l.find? (fun a => key a == k)).map f := by
  induction l with
  | nil => rfl
  | cons a t ih =>
    show ((if key a == k then f a else a) ::
      updateByKey key k f t).find? (fun a => key a == k) = _
    by_cases hak : key a = k
    · rw [if_pos (beq_iff_eq.mpr hak)]
      rw [List.find?_cons_of_pos _ (by simp [hid, hak]),
        List.find?_cons_of_pos _ (by simp [hak])]
      rfl
    · rw [if_neg (by simp [hak])]
      rw [List.find?_cons_of_neg _ (by simp [hak]),
        List.find?_cons_of_neg _ (by simp [hak])]
      exact ih

theorem eq_upd_of_mem_updateByKey {α : Type} (key : α → String) (k : String)
    (f : α → α) (l : List α) (b : α)
    (hb : b ∈ updateByKey key k f l) (hkey : key b = k) :
    ∃ a, a ∈ l ∧ b = f a := by
  obtain ⟨a, ha, he⟩ := List.mem_map.mp hb
  by_cases hak : key a = k
  · exact ⟨a, ha, by rw [← he, if_pos (beq_iff_eq.mpr hak)]⟩
  · exfalso
    have hba : b = a := by rw [← he, if_neg (by simp [hak])]
    exact hak (hba ▸ hkey)

theorem updateByKey_id_of_ne {α : Type} (key : α → String) (k : String)
    (f : α → α) (l : List α) (h : ∀ a ∈ l, key a ≠ k) :
    updateByKey key k f l = l := by
  induction l with
  | nil => rfl
  | cons a t ih =>
    show (if key a == k then f a else a) :: updateByKey key k f t = a :: t
    rw [if_neg (by simp [h a (List.mem_cons_self a t)]),
      ih fun b hb => h b (List.mem_cons_of_mem _ hb)]

/-! ## Frame and stock lemmas for the inventory loop -/

theorem decrementItem_orders (st : Store) (it : OrderItem) :
    (decrementItem st it).orders = st.orders := by
  unfold decrementItem
  split <;> rfl

theorem decrementItem_payments (st : Store) (it : OrderItem) :
    (decrementItem st it).payments = st.payments := by
  unfold decrementItem
  split <;> rfl

theorem decrementItems_orders (items : List OrderItem) (st : Store) :
    (decrementItems items st).orders = st.orders := by
  induction items generalizing st with
  | nil => rfl
  | cons hd tl ih =>
    show (decrementItems tl (decrementItem st hd)).orders = st.orders
    rw [ih, decrementItem_orders]

theorem decrementItems_payments (items : List OrderItem) (st : Store) :
    (decrementItems items st).payments = st.payments := by
  induction items generalizing st with
  | nil => rfl
  | cons hd tl ih =>
    show (decrementItems tl (decrementItem st hd)).payments = st.payments
    rw [ih, decrementItem_payments]

theorem stockOf_decrementItem_ne (st : Store) (it : OrderItem) (vid : String)
    (h : vid ≠ it.variant_id) :
    stockOf (decrementItem st it) vid = stockOf st vid := by
  unfold decrementItem
  split
  · rfl
  · next v hv =>
    exact congrArg (Option.map Variant.stock_quantity)
      (find?_updateByKey_ne Variant.id it.variant_id vid
        (fun w => { w with stock_quantity := v.stock_quantity - it.quantity })
        (fun w => rfl) h st.variants)

theorem stockOf_decrementItem_self (st : Store) (it : OrderItem) (s : Int)
    (h : stockOf st it.variant_id = some s) :
    stockOf (decrementItem st it) it.variant_id = some (s - it.quantity) := by
  unfold stockOf at h
  obtain ⟨v, hv, hs⟩ : ∃ v,
      st.variants.find? (fun w => w.id == it.variant_id) = some v ∧
      v.stock_quantity = s := by
    cases hf : st.variants.find? (fun w => w.id == it.variant_id) with
    | none => rw [hf] at h; simp at h
    | some v => rw [hf] at h; exact ⟨v, rfl, by simpa using h⟩
  unfold decrementItem
  rw [hv]
  show Option.map Variant.stock_quantity
      ((updateByKey Variant.id it.variant_id
        (fun w => { w with stock_quantity := v.stock_quantity - it.quantity })
        st.variants).find? fun w => w.id == it.variant_id) =
    some (s - it.quantity)
  rw [find?_updateByKey_self Variant.id it.variant_id
    (fun w => { w with stock_quantity := v.stock_quantity - it.quantity })
    (fun w => rfl) st.variants]
  rw [hv]
  simp [hs]

theorem stockOf_decrementItems_ne (items : List OrderItem) (st : Store)
    (vid : String) (h : ∀ it ∈ items, vid ≠ it.variant_id) :
    stockOf (decrementItems items st) vid = stockOf st vid := by
  induction items generalizing st with
  | nil => rfl
  | cons hd tl ih =>
    show stockOf (decrementItems tl (decrementItem st hd)) vid = _
    rw [ih _ fun it hit => h it (List.mem_cons_of_mem _ hit),
      stockOf_decrementItem_ne st hd vid (h hd (List.mem_cons_self hd tl))]

theorem stockOf_decrementItems_nodup (items : List OrderItem) (st : Store)
    (hnd : (items.map OrderItem.variant_id).Nodup)
    (it : OrderItem) (hit : it ∈ items) (s : Int)
    (h : stockOf st it.variant_id = some s) :
    stockOf (decrementItems items st) it.variant_id =
      some (s - it.quantity) := by
  induction items generalizing st with
  | nil => cases hit
  | cons hd tl ih =>
    rw [List.map_cons, List.nodup_cons] at hnd
    obtain ⟨hhd, htl⟩ := hnd
    show stockOf (decrementItems tl (decrementItem st hd)) it.variant_id = _
    rcases List.mem_cons.mp hit with rfl | hmem
    · rw [stockOf_decrementItems_ne tl _ _ ?_]
      · exact stockOf_decrementItem_self st it s h
      · intro it2 hit2 he
        exact hhd (he ▸ List.mem_map_of_mem OrderItem.variant_id hit2)
    · have hne : it.variant_id ≠ hd.variant_id := by
        intro he
        exact hhd (he ▸ List.mem_map_of_mem OrderItem.variant_id hmem)
      exact ih (decrementItem st hd) htl hmem
        ((stockOf_decrementItem_ne st hd it.variant_id hne).trans h)

/-! ## Unfolding lemmas for the verify-payment branch -/

theorem verifyPayment_match (hmac : String → String → List Nat)
    (secret : String) (p : ConfirmPayload) (st : Store)
    (hsig : createHmacSha256 hmac secret
      (p.razorpay_order_id ++ "|" ++ p.razorpay_payment_id) =
      p.razorpay_signature) :
    verifyPayment hmac secret noFaults p st =
      (⟨updateByKey Payment.razorpay_order_id p.razorpay_order_id
          (markPaymentCompleted p.razorpay_payment_id p.razorpay_signature)
          st.payments,
        updateByKey Order.id p.orderId markOrderConfirmed st.orders,
        st.variants⟩,
       ⟨true, none, some "Payment verified successfully", 200⟩) := by
  unfold verifyPayment
  simp [hsig, noFaults]

theorem verifyPayment_mismatch (hmac : String → String → List Nat)
    (secret : String) (faults : StoreFaults) (p : ConfirmPayload)
    (st : Store)
    (hsig : createHmacSha256 hmac secret
      (p.razorpay_order_id ++ "|" ++ p.razorpay_payment_id) ≠
      p.razorpay_signature) :
    verifyPayment hmac secret faults p st =
      ({ st with payments := (updateByKey Payment.razorpay_order_id
          p.razorpay_order_id markPaymentFailed st.payments) },
       ⟨false, some "Payment verification failed", none, 400⟩) := by
  unfold verifyPayment
  rw [if_pos (by simp [hsig])]

theorem verifyPayment_bothFaults (hmac : String → String → List Nat)
    (secret : String) (p : ConfirmPayload) (st : Store)
    (hsig : createHmacSha256 hmac secret
      (p.razorpay_order_id ++ "|" ++ p.razorpay_payment_id) =
      p.razorpay_signature) :
    verifyPayment hmac secret ⟨true, true⟩ p st =
      (st, ⟨true, none, some "Payment verified successfully", 200⟩) := by
  unfold verifyPayment
  simp [hsig]

/-! ## The short-circuit comparison cost model -/

theorem scCompare_fst_iff (a b : List Char) :
    (scCompare a b).1 = true ↔ a = b := by
  induction a generalizing b with
  | nil => cases b <;> simp [scCompare]
  | cons x xs ih =>
    cases b with
    | nil => simp [scCompare]
    | cons y ys =>
      by_cases hxy : x = y
      · subst hxy
        simp [scCompare, ih]
      · simp [scCompare, beq_eq_false_iff_ne.mpr hxy, hxy]

theorem scCompare_fst_eq_beq (a b : String) :
    (scCompare a.data b.data).1 = (a == b) := by
  cases h1 : (scCompare a.data b.data).1 <;> cases h2 : (a == b)
  · rfl
  · exfalso
    have hab : a = b := beq_iff_eq.mp h2
    rw [(scCompare_fst_iff a.data b.data).mpr (congrArg String.data hab)]
      at h1
    cases h1
  · exfalso
    have : a.data = b.data := (scCompare_fst_iff a.data b.data).mp h1
    rw [beq_iff_eq.mpr (String.ext this)] at h2
    cases h2
  · rfl

theorem scCompare_steps (i : Nat) (a b : List Char)
    (ha : i < a.length) (hb : i < b.length)
    (hpre : a.take i = b.take i)
    (hdiff : a.get ⟨i, ha⟩ ≠ b.get ⟨i, hb⟩) :
    scCompare a b = (false, i + 1) := by
  induction i generalizing a b with
  | zero =>
    cases a with
    | nil => simp at ha
    | cons x xs =>
      cases b with
      | nil => simp at hb
      | cons y ys =>
        have hxy : (x == y) = false :=
          beq_eq_false_iff_ne.mpr (by simpa using hdiff)
        simp [scCompare, hxy]
  | succ n ih =>
    cases a with
    | nil => simp at ha
    | cons x xs =>
      cases b with
      | nil => simp at hb
      | cons y ys =>
        have hxy : x = y := by
          have := congrArg (fun l => l.head?) hpre
          simpa [List.take_succ_cons] using this
        subst hxy
        have hpre2 : xs.take n = ys.take n := by
          simpa [List.take_succ_cons] using hpre
        have hrec := ih xs ys (by simpa using ha) (by simpa using hb) hpre2
          (by simpa using hdiff)
        simp [scCompare, hrec]

/-! ## Flipping one character changes the string -/

theorem set_ne_of_get_ne (l : List Char) (i : Nat) (c : Char)
    (h : i < l.length) (hc : c ≠ l.get ⟨i, h⟩) :
    l.set i c ≠ l := by
  intro he
  have e1 : (l.set i c)[i]? = some c := by simp [h]
  rw [he] at e1
  have e2 : l[i]? = some (l.get ⟨i, h⟩) := by
    simp [List.getElem?_eq_getElem h]
  rw [e1] at e2
  exact hc (Option.some.inj e2)

theorem flipChar_ne (s : String) (i : Nat) (c : Char)
    (h : i < s.data.length) (hc : c ≠ s.data.get ⟨i, h⟩) :
    flipChar s i c ≠ s := by
  intro he
  have : s.data.set i c = s.data := congrArg String.data he
  exact set_ne_of_get_ne s.data i c h hc this

/-! ## Projection congruence and status-update helpers -/

theorem orderStatusOf_congr {st1 st2 : Store} (h : st1.orders = st2.orders)
    (oid : String) : orderStatusOf st1 oid = orderStatusOf st2 oid := by
  unfold orderStatusOf
  rw [h]

theorem paymentStatusOf_congr {st1 st2 : Store}
    (h : st1.payments = st2.payments) (rid : String) :
    paymentStatusOf st1 rid = paymentStatusOf st2 rid := by
  unfold paymentStatusOf
  rw [h]

theorem stockOf_congr {st1 st2 : Store} (h : st1.variants = st2.variants)
    (vid : String) : stockOf st1 vid = stockOf st2 vid := by
  unfold stockOf
  rw [h]

theorem find?_confirm_order (os : List Order) (oid : String)
    (x : OrderStatus)
    (h : (os.find? fun o => o.id == oid).map Order.status = some x) :
    ((updateByKey Order.id oid markOrderConfirmed os).find?
      fun o => o.id == oid).map Order.status =
      some OrderStatus.confirmed := by
  rw [find?_updateByKey_self Order.id oid markOrderConfirmed (fun o => rfl)
    os]
  obtain ⟨o, ho⟩ : ∃ o, os.find? (fun o2 => o2.id == oid) = some o := by
    cases hf : os.find? (fun o2 => o2.id == oid) with
    | none => rw [hf] at h; simp at h
    | some o => exact ⟨o, rfl⟩
  rw [ho]
  rfl

theorem find?_complete_payment (ps : List Payment) (rid pid sig : String)
    (x : PaymentStatus)
    (h : (ps.find? fun q => q.razorpay_order_id == rid).map Payment.status =
      some x) :
    ((updateByKey Payment.razorpay_order_id rid
      (markPaymentCompleted pid sig) ps).find?
      fun q => q.razorpay_order_id == rid).map Payment.status =
      some PaymentStatus.completed := by
  rw [find?_updateByKey_self Payment.razorpay_order_id rid
    (markPaymentCompleted pid sig) (fun q => rfl) ps]
  obtain ⟨q, hq⟩ : ∃ q,
      ps.find? (fun q2 => q2.razorpay_order_id == rid) = some q := by
    cases hf : ps.find? (fun q2 => q2.razorpay_order_id == rid) with
    | none => rw [hf] at h; simp at h
    | some q => exact ⟨q, rfl⟩
  rw [hq]
  rfl

/-- The success path of `handlerConfirm` as one equation. -/
theorem handlerConfirm_match (hmac : String → String → List Nat)
    (secret : String) (p : ConfirmPayload) (items : List OrderItem)
    (st : Store)
    (hsig : createHmacSha256 hmac secret
      (p.razorpay_order_id ++ "|" ++ p.razorpay_payment_id) =
      p.razorpay_signature) :
    handlerConfirm hmac secret noFaults p items st =
      (decrementItems items
        ⟨updateByKey Payment.razorpay_order_id p.razorpay_order_id
          (markPaymentCompleted p.razorpay_payment_id p.razorpay_signature)
          st.payments,
         updateByKey Order.id p.orderId markOrderConfirmed st.orders,
         st.variants⟩, true) := by
  unfold handlerConfirm
  rw [verifyPayment_match hmac secret p st hsig]
  rfl

/-! ## Claim theorems -/

/-- C2: for every confirm call whose supplied signature does not equal
the recomputed HMAC, the operation marks the matching Payment rows
`failed` with the explanatory error message and returns `valid:false`
(HTTP 400), and the Order rows and every variant's stock quantity are
left unchanged (the client callback stops before the inventory loop). -/
theorem confirm_bad_signature_marks_failed_and_frames
    (hmac : String → String → List Nat) (secret : String)
    (faults : StoreFaults) (p : ConfirmPayload) (items : List OrderItem)
    (st : Store)
    (hsig : createHmacSha256 hmac secret
      (p.razorpay_order_id ++ "|" ++ p.razorpay_payment_id) ≠
      p.razorpay_signature) :
    (verifyPayment hmac secret faults p st).2.valid = false ∧
    (handlerConfirm hmac secret faults p items st).2 = false ∧
    (handlerConfirm hmac secret faults p items st).1.orders = st.orders ∧
    (handlerConfirm hmac secret faults p items st).1.variants =
      st.variants ∧
    ∀ pay ∈ (handlerConfirm hmac secret faults p items st).1.payments,
      pay.razorpay_order_id = p.razorpay_order_id →
      pay.status = PaymentStatus.failed ∧
      pay.error_message = some "Signature verification failed" := by
  have hv := verifyPayment_mismatch hmac secret faults p st hsig
  have hh : handlerConfirm hmac secret faults p items st =
      ({ st with payments := (updateByKey Payment.razorpay_order_id
          p.razorpay_order_id markPaymentFailed st.payments) }, false) := by
    unfold handlerConfirm
    rw [hv]
    rfl
  refine ⟨by rw [hv], by rw [hh], by rw [hh], by rw [hh], ?_⟩
  rw [hh]
  intro pay hmem hkey
  obtain ⟨a, ha, hb⟩ := eq_upd_of_mem_updateByKey Payment.razorpay_order_id
    p.razorpay_order_id markPaymentFailed st.payments pay hmem hkey
  subst hb
  exact ⟨rfl, rfl⟩

/-- Witness for C2 on the concrete scenario: the supplied signature
"9999" differs from the recomputed "1234". -/
theorem confirm_bad_signature_marks_failed_and_frames_witness :
    (verifyPayment dummyHmac exSecret noFaults
      ⟨"rzp1", "pay1", "9999", "o1"⟩ exStore).2.valid = false ∧
    (handlerConfirm dummyHmac exSecret noFaults
      ⟨"rzp1", "pay1", "9999", "o1"⟩ [exItem] exStore).2 = false ∧
    (handlerConfirm dummyHmac exSecret noFaults
      ⟨"rzp1", "pay1", "9999", "o1"⟩ [exItem] exStore).1.orders =
      exStore.orders ∧
    (handlerConfirm dummyHmac exSecret noFaults
      ⟨"rzp1", "pay1", "9999", "o1"⟩ [exItem] exStore).1.variants =
      exStore.variants ∧
    ∀ pay ∈ (handlerConfirm dummyHmac exSecret noFaults
      ⟨"rzp1", "pay1", "9999", "o1"⟩ [exItem] exStore).1.payments,
      pay.razorpay_order_id = "rzp1" →
      pay.status = PaymentStatus.failed ∧
      pay.error_message = some "Signature verification failed" :=
  confirm_bad_signature_marks_failed_and_frames dummyHmac exSecret noFaults
    ⟨"rzp1", "pay1", "9999", "o1"⟩ [exItem] exStore (by decide)

/-- C8: the signature verifier recomputes the keyed hash of
`orderId + "|" + paymentId` under the secret and hex-encodes it; for
every key, id pair and index, verifying that very signature succeeds,
and flipping any single character of it (to a different character) makes
verification fail.  The HMAC-SHA256 primitive itself is the WebCrypto
call and enters as the abstract `hmac`, universally quantified here. -/
theorem verify_signature_roundtrip_flip (hmac : String → String → List Nat)
    (K orderId paymentId : String) (i : Nat) (c : Char)
    (hi : i <
      (createHmacSha256 hmac K (orderId ++ "|" ++ paymentId)).data.length)
    (hc : c ≠
      (createHmacSha256 hmac K (orderId ++ "|" ++ paymentId)).data.get
        ⟨i, hi⟩) :
    verifySignature hmac K orderId paymentId
      (createHmacSha256 hmac K (orderId ++ "|" ++ paymentId)) = true ∧
    verifySignature hmac K orderId paymentId
      (flipChar (createHmacSha256 hmac K (orderId ++ "|" ++ paymentId)) i c)
      = false := by
  constructor
  · unfold verifySignature
    exact beq_self_eq_true _
  · unfold verifySignature
    exact beq_eq_false_iff_ne.mpr fun he =>
      flipChar_ne _ i c hi hc he.symm

/-- Witness for C8: with the stand-in HMAC the recomputed signature is
"1234"; verifying it succeeds and flipping its first character to 'x'
fails. -/
theorem verify_signature_roundtrip_flip_witness :
    verifySignature dummyHmac exSecret "a" "b"
      (createHmacSha256 dummyHmac exSecret ("a" ++ "|" ++ "b")) = true ∧
    verifySignature dummyHmac exSecret "a" "b"
      (flipChar (createHmacSha256 dummyHmac exSecret ("a" ++ "|" ++ "b"))
        0 'x') = false :=
  verify_signature_roundtrip_flip dummyHmac exSecret "a" "b" 0 'x'
    (by decide) (by decide)

/-- C10: confirm's two updates are keyed independently: for every payload
whose signature verifies, the order whose id equals the payload's
`orderId` is marked `confirmed` — even under the hypothesis that every
payments row matching the gateway order id references a different order
than `orderId`. -/
theorem confirm_unlinked_updates (hmac : String → String → List Nat)
    (secret : String) (p : ConfirmPayload) (st : Store) (x : OrderStatus)
    (hsig : createHmacSha256 hmac secret
      (p.razorpay_order_id ++ "|" ++ p.razorpay_payment_id) =
      p.razorpay_signature)
    (hord : orderStatusOf st p.orderId = some x)
    (hunlinked : ∀ pay ∈ st.payments,
      pay.razorpay_order_id = p.razorpay_order_id →
      pay.order_id ≠ p.orderId) :
    (verifyPayment hmac secret noFaults p st).2.valid = true ∧
    orderStatusOf (verifyPayment hmac secret noFaults p st).1 p.orderId =
      some OrderStatus.confirmed := by
  rw [verifyPayment_match hmac secret p st hsig]
  refine ⟨rfl, ?_⟩
  show ((updateByKey Order.id p.orderId markOrderConfirmed st.orders).find?
    fun o => o.id == p.orderId).map Order.status = some OrderStatus.confirmed
  rw [find?_updateByKey_self Order.id p.orderId markOrderConfirmed
    (fun o => rfl) st.orders]
  obtain ⟨o, ho⟩ : ∃ o,
      st.orders.find? (fun o2 => o2.id == p.orderId) = some o := by
    unfold orderStatusOf at hord
    cases hf : st.orders.find? (fun o2 => o2.id == p.orderId) with
    | none => rw [hf] at hord; simp at hord
    | some o => exact ⟨o, rfl⟩
  rw [ho]
  rfl

/-- Witness for C10: the only payments row matching gateway order id
"rzp1" references order "o2", yet order "o1" (the payload's `orderId`)
gets confirmed. -/
theorem confirm_unlinked_updates_witness :
    (verifyPayment dummyHmac exSecret noFaults exPayload
      exStoreUnlinked).2.valid = true ∧
    orderStatusOf (verifyPayment dummyHmac exSecret noFaults exPayload
      exStoreUnlinked).1 exPayload.orderId = some OrderStatus.confirmed :=
  confirm_unlinked_updates dummyHmac exSecret exPayload exStoreUnlinked
    OrderStatus.pending (by decide) (by decide) (by decide)

/-- C6: after a successful confirm on a pending order the order's status
is `confirmed`, the matching Payment row is `completed`, and every
variant referenced by an order item (items on pairwise-distinct
variants) has stock equal to its prior stock minus that item's
quantity. -/
theorem confirm_success_postconditions (hmac : String → String → List Nat)
    (secret : String) (p : ConfirmPayload) (items : List OrderItem)
    (st : Store)
    (hsig : createHmacSha256 hmac secret
      (p.razorpay_order_id ++ "|" ++ p.razorpay_payment_id) =
      p.razorpay_signature)
    (hnd : (items.map OrderItem.variant_id).Nodup)
    (hord : orderStatusOf st p.orderId = some OrderStatus.pending)
    (hpay : ∃ x, paymentStatusOf st p.razorpay_order_id = some x) :
    (handlerConfirm hmac secret noFaults p items st).2 = true ∧
    orderStatusOf (handlerConfirm hmac secret noFaults p items st).1
      p.orderId = some OrderStatus.confirmed ∧
    paymentStatusOf (handlerConfirm hmac secret noFaults p items st).1
      p.razorpay_order_id = some PaymentStatus.completed ∧
    ∀ it ∈ items, ∀ s : Int, stockOf st it.variant_id = some s →
      stockOf (handlerConfirm hmac secret noFaults p items st).1
        it.variant_id = some (s - it.quantity) := by
  obtain ⟨x, hpay⟩ := hpay
  rw [handlerConfirm_match hmac secret p items st hsig]
  refine ⟨rfl, ?_, ?_, ?_⟩
  · rw [orderStatusOf_congr (decrementItems_orders items _) p.orderId]
    exact find?_confirm_order st.orders p.orderId OrderStatus.pending hord
  · rw [paymentStatusOf_congr (decrementItems_payments items _)
      p.razorpay_order_id]
    exact find?_complete_payment st.payments p.razorpay_order_id
      p.razorpay_payment_id p.razorpay_signature x hpay
  · intro it hit s hs
    exact stockOf_decrementItems_nodup items _ hnd it hit s hs

/-- Witness for C6, the spec's scenario: one item of quantity 2 on a
variant with stock 5; after confirm the stock is 3, the Payment
`completed`, the Order `confirmed`. -/
theorem confirm_success_postconditions_witness :
    ((handlerConfirm dummyHmac exSecret noFaults exPayload [exItem]
        exStore).2 = true ∧
      orderStatusOf (handlerConfirm dummyHmac exSecret noFaults exPayload
        [exItem] exStore).1 exPayload.orderId =
        some OrderStatus.confirmed ∧
      paymentStatusOf (handlerConfirm dummyHmac exSecret noFaults exPayload
        [exItem] exStore).1 exPayload.razorpay_order_id =
        some PaymentStatus.completed ∧
      ∀ it ∈ [exItem], ∀ s : Int, stockOf exStore it.variant_id = some s →
        stockOf (handlerConfirm dummyHmac exSecret noFaults exPayload
          [exItem] exStore).1 it.variant_id = some (s - it.quantity)) ∧
    stockOf (handlerConfirm dummyHmac exSecret noFaults exPayload [exItem]
      exStore).1 "v1" = some 3 :=
  ⟨confirm_success_postconditions dummyHmac exSecret exPayload [exItem]
      exStore (by decide) (by decide) (by decide)
      ⟨PaymentStatus.pending, by decide⟩,
    by decide⟩

/-- C1 counterexample: after a first successful confirm the Payment row
for gateway order id "rzp1" is already `completed` and the stock is 3;
invoking confirm a second time with the identical valid payload returns
success but decrements the variant's stock again, to 1 — two decrements
in total, not one. -/
theorem confirm_twice_decrements_twice_cex :
    paymentStatusOf (handlerConfirm dummyHmac exSecret noFaults exPayload
      [exItem] exStore).1 "rzp1" = some PaymentStatus.completed ∧
    stockOf (handlerConfirm dummyHmac exSecret noFaults exPayload [exItem]
      exStore).1 "v1" = some 3 ∧
    (handlerConfirm dummyHmac exSecret noFaults exPayload [exItem]
      (handlerConfirm dummyHmac exSecret noFaults exPayload [exItem]
        exStore).1).2 = true ∧
    stockOf (handlerConfirm dummyHmac exSecret noFaults exPayload [exItem]
      (handlerConfirm dummyHmac exSecret noFaults exPayload [exItem]
        exStore).1).1 "v1" = some 1 := by
  decide

/-- C1 amended: confirm performs no terminal-state check, so it is not
idempotent: a second call with the identical valid payload returns
success and re-runs the whole success path; the Payment and Order
updates rewrite the same terminal values, but the inventory decrement
runs again — after two calls each item's variant has stock
`before - quantity - quantity`, not `before - quantity`. -/
theorem confirm_twice_double_decrement (hmac : String → String → List Nat)
    (secret : String) (p : ConfirmPayload) (items : List OrderItem)
    (st : Store)
    (hsig : createHmacSha256 hmac secret
      (p.razorpay_order_id ++ "|" ++ p.razorpay_payment_id) =
      p.razorpay_signature)
    (hnd : (items.map OrderItem.variant_id).Nodup) :
    (handlerConfirm hmac secret noFaults p items
      (handlerConfirm hmac secret noFaults p items st).1).2 = true ∧
    ∀ it ∈ items, ∀ s : Int, stockOf st it.variant_id = some s →
      stockOf (handlerConfirm hmac secret noFaults p items
        (handlerConfirm hmac secret noFaults p items st).1).1 it.variant_id
        = some (s - it.quantity - it.quantity) := by
  rw [handlerConfirm_match hmac secret p items st hsig]
  rw [handlerConfirm_match hmac secret p items _ hsig]
  refine ⟨rfl, ?_⟩
  intro it hit s hs
  have h1 : stockOf (decrementItems items
      (⟨updateByKey Payment.razorpay_order_id p.razorpay_order_id
        (markPaymentCompleted p.razorpay_payment_id p.razorpay_signature)
        st.payments,
       updateByKey Order.id p.orderId markOrderConfirmed st.orders,
       st.variants⟩ : Store)) it.variant_id = some (s - it.quantity) := by
    exact stockOf_decrementItems_nodup items _ hnd it hit s hs
  exact stockOf_decrementItems_nodup items _ hnd it hit (s - it.quantity) h1

/-- Witness for C1's amended theorem on the concrete scenario. -/
theorem confirm_twice_double_decrement_witness :
    (handlerConfirm dummyHmac exSecret noFaults exPayload [exItem]
      (handlerConfirm dummyHmac exSecret noFaults exPayload [exItem]
        exStore).1).2 = true ∧
    ∀ it ∈ [exItem], ∀ s : Int, stockOf exStore it.variant_id = some s →
      stockOf (handlerConfirm dummyHmac exSecret noFaults exPayload
        [exItem] (handlerConfirm dummyHmac exSecret noFaults exPayload
          [exItem] exStore).1).1 it.variant_id =
        some (s - it.quantity - it.quantity) :=
  confirm_twice_double_decrement dummyHmac exSecret exPayload [exItem]
    exStore (by decide) (by decide)

/-- C4 counterexample: with an empty payments table and a valid
signature, confirm does not fail with NotFound: it responds HTTP 200
`valid:true` and still marks order "o1" confirmed. -/
theorem confirm_unknown_payment_succeeds_cex :
    exStoreNoPayment.payments = [] ∧
    (verifyPayment dummyHmac exSecret noFaults exPayload
      exStoreNoPayment).2.valid = true ∧
    (verifyPayment dummyHmac exSecret noFaults exPayload
      exStoreNoPayment).2.httpStatus = 200 ∧
    orderStatusOf (verifyPayment dummyHmac exSecret noFaults exPayload
      exStoreNoPayment).1 "o1" = some OrderStatus.confirmed := by
  decide

/-- C4 amended: confirm never checks that a payments row exists for the
gateway order id: when none matches (and the signature is valid) it
leaves the payments table unchanged, still marks the order matching
`orderId` confirmed, and returns success — there is no NotFound
failure. -/
theorem confirm_unknown_payment_no_notfound
    (hmac : String → String → List Nat) (secret : String)
    (p : ConfirmPayload) (st : Store) (x : OrderStatus)
    (hsig : createHmacSha256 hmac secret
      (p.razorpay_order_id ++ "|" ++ p.razorpay_payment_id) =
      p.razorpay_signature)
    (hnone : ∀ q ∈ st.payments,
      q.razorpay_order_id ≠ p.razorpay_order_id)
    (hord : orderStatusOf st p.orderId = some x) :
    (verifyPayment hmac secret noFaults p st).2.valid = true ∧
    (verifyPayment hmac secret noFaults p st).1.payments = st.payments ∧
    orderStatusOf (verifyPayment hmac secret noFaults p st).1 p.orderId =
      some OrderStatus.confirmed := by
  rw [verifyPayment_match hmac secret p st hsig]
  refine ⟨rfl, ?_, ?_⟩
  · exact updateByKey_id_of_ne Payment.razorpay_order_id
      p.razorpay_order_id _ st.payments hnone
  · exact find?_confirm_order st.orders p.orderId x hord

/-- Witness for C4's amended theorem on the payment-less scenario. -/
theorem confirm_unknown_payment_no_notfound_witness :
    (verifyPayment dummyHmac exSecret noFaults exPayload
      exStoreNoPayment).2.valid = true ∧
    (verifyPayment dummyHmac exSecret noFaults exPayload
      exStoreNoPayment).1.payments = exStoreNoPayment.payments ∧
    orderStatusOf (verifyPayment dummyHmac exSecret noFaults exPayload
      exStoreNoPayment).1 exPayload.orderId =
      some OrderStatus.confirmed :=
  confirm_unknown_payment_no_notfound dummyHmac exSecret exPayload
    exStoreNoPayment OrderStatus.pending (by decide) (by decide) (by decide)

/-- C5 counterexample: when both checked store writes fail during
step 2/3 the store is left entirely unchanged — the payment row is still
`pending` — yet confirm responds a plain success: `valid:true`,
HTTP 200, no error field. -/
theorem confirm_store_error_swallowed_cex :
    (verifyPayment dummyHmac exSecret ⟨true, true⟩ exPayload
      exStore).2.valid = true ∧
    (verifyPayment dummyHmac exSecret ⟨true, true⟩ exPayload
      exStore).2.error = none ∧
    (verifyPayment dummyHmac exSecret ⟨true, true⟩ exPayload
      exStore).2.httpStatus = 200 ∧
    (verifyPayment dummyHmac exSecret ⟨true, true⟩ exPayload
      exStore).1 = exStore ∧
    paymentStatusOf exStore "rzp1" = some PaymentStatus.pending := by
  decide

/-- C5 amended: the source only logs `updatePaymentError` and
`updateOrderError`; whenever the signature matches, confirm responds the
full plain-success record no matter which store writes fail, and when the
payment write fails the payments table is left unchanged even though the
response says success. -/
theorem confirm_store_error_swallowed
    (hmac : String → String → List Nat) (secret : String)
    (faults : StoreFaults) (p : ConfirmPayload) (st : Store)
    (hsig : createHmacSha256 hmac secret
      (p.razorpay_order_id ++ "|" ++ p.razorpay_payment_id) =
      p.razorpay_signature)
    (hfault : faults.paymentUpdateError = true ∨
      faults.orderUpdateError = true) :
    (verifyPayment hmac secret faults p st).2 =
      ⟨true, none, some "Payment verified successfully", 200⟩ ∧
    (faults.paymentUpdateError = true →
      (verifyPayment hmac secret faults p st).1.payments = st.payments) := by
  obtain ⟨fp, fo⟩ := faults
  constructor
  · unfold verifyPayment
    simp [hsig]
  · intro hfp
    have hfp2 : fp = true := hfp
    subst hfp2
    cases fo
    · unfold verifyPayment
      simp [hsig]
    · unfold verifyPayment
      simp [hsig]

/-- Witness for C5's amended theorem with both writes failing. -/
theorem confirm_store_error_swallowed_witness :
    ((verifyPayment dummyHmac exSecret ⟨true, true⟩ exPayload exStore).2 =
      ⟨true, none, some "Payment verified successfully", 200⟩ ∧
    ((⟨true, true⟩ : StoreFaults).paymentUpdateError = true →
      (verifyPayment dummyHmac exSecret ⟨true, true⟩ exPayload
        exStore).1.payments = exStore.payments)) :=
  confirm_store_error_swallowed dummyHmac exSecret ⟨true, true⟩ exPayload
    exStore (by decide) (Or.inl rfl)

/-- C3 counterexample: order "o1" is owned by "alice", yet a confirm call
authenticated as "mallory" is not rejected with Unauthorized: it
responds `valid:true` with HTTP 200 and performs writes — the order gets
confirmed and the store changes. -/
theorem confirm_no_ownership_check_cex :
    exOrder.user_id = "alice" ∧
    (serveConfirm dummyHmac exSecret (some "mallory") noFaults exPayload
      exStore).2.valid = true ∧
    (serveConfirm dummyHmac exSecret (some "mallory") noFaults exPayload
      exStore).2.httpStatus = 200 ∧
    orderStatusOf (serveConfirm dummyHmac exSecret (some "mallory")
      noFaults exPayload exStore).1 "o1" = some OrderStatus.confirmed ∧
    (serveConfirm dummyHmac exSecret (some "mallory") noFaults exPayload
      exStore).1 ≠ exStore := by
  decide

/-- C3 amended: the serve gate checks only that some caller is
authenticated: an unauthenticated call fails with 401 Unauthorized and
no writes, while for every authenticated caller — owner of the
referenced order or not — confirm proceeds identically, the caller's
identity never being consulted. -/
theorem serve_auth_gate_only (hmac : String → String → List Nat)
    (secret : String) (faults : StoreFaults) (p : ConfirmPayload)
    (st : Store) :
    serveConfirm hmac secret none faults p st =
      (st, ⟨false, some "Unauthorized", none, 401⟩) ∧
    ∀ uid : String, serveConfirm hmac secret (some uid) faults p st =
      verifyPayment hmac secret faults p st :=
  ⟨rfl, fun _ => rfl⟩

/-- C7 counterexample: decrementing quantity 2 from a variant with
stock 1 does not fail with InsufficientStock — the write lands and the
resulting stock is -1, a negative quantity. -/
theorem decrement_negative_stock_cex :
    stockOf exStoreLow "v1" = some 1 ∧
    exItem.quantity = 2 ∧
    stockOf (decrementItem exStoreLow exItem) "v1" = some (-1) := by
  decide

/-- C7 amended: the inventory decrement performs no stock check: it
always writes `current - quantity`, and when `current < quantity` the
written stock is negative — there is no InsufficientStock failure
path. -/
theorem decrement_unchecked (st : Store) (it : OrderItem) (s : Int)
    (h : stockOf st it.variant_id = some s) :
    stockOf (decrementItem st it) it.variant_id = some (s - it.quantity) ∧
    (s < it.quantity → s - it.quantity < 0) :=
  ⟨stockOf_decrementItem_self st it s h, fun hlt => by omega⟩

/-- Witness for C7's amended theorem on the low-stock scenario. -/
theorem decrement_unchecked_witness :
    stockOf (decrementItem exStoreLow exItem) exItem.variant_id =
      some (1 - exItem.quantity) ∧
    ((1 : Int) < exItem.quantity → (1 : Int) - exItem.quantity < 0) :=
  decrement_unchecked exStoreLow exItem 1 (by decide)

/-- C9 counterexample: the signature comparison is the short-circuiting
string equality, whose cost depends on the position of the first
differing character: comparing "aaaa" with "baaa" (first difference at
position 0) performs 1 character comparison while "aaaa" with "aaab"
(first difference at position 3) performs 4, although the four strings
all have length 4; both comparisons return the value the code's
equality check uses. -/
theorem signature_compare_not_constant_time_cex :
    (scCompare ("aaaa" : String).data ("baaa" : String).data).1 =
      (("aaaa" : String) == "baaa") ∧
    (scCompare ("aaaa" : String).data ("aaab" : String).data).1 =
      (("aaaa" : String) == "aaab") ∧
    (scCompare ("aaaa" : String).data ("baaa" : String).data).2 = 1 ∧
    (scCompare ("aaaa" : String).data ("aaab" : String).data).2 = 4 := by
  decide

/-- C9 amended: the comparison at index.ts line 132 is the ordinary
short-circuiting string equality — it agrees with `==` on every pair of
strings, and on inputs that agree up to position i and first differ at i
it performs exactly i+1 character comparisons, so its running cost
depends on the position of the first differing character; it is not the
constant-time comparison the spec prescribes. -/
theorem signature_compare_short_circuits (a b : String) (i : Nat)
    (ha : i < a.data.length) (hb : i < b.data.length)
    (hpre : a.data.take i = b.data.take i)
    (hdiff : a.data.get ⟨i, ha⟩ ≠ b.data.get ⟨i, hb⟩) :
    (scCompare a.data b.data).1 = (a == b) ∧
    scCompare a.data b.data = (false, i + 1) :=
  ⟨scCompare_fst_eq_beq a b,
    scCompare_steps i a.data b.data ha hb hpre hdiff⟩

/-- Witness for C9's amended theorem at first difference position 3. -/
theorem signature_compare_short_circuits_witness :
    (scCompare ("aaaa" : String).data ("aaab" : String).data).1 =
      (("aaaa" : String) == "aaab") ∧
    scCompare ("aaaa" : String).data ("aaab" : String).data =
      (false, 3 + 1) :=
  signature_compare_short_circuits "aaaa" "aaab" 3 (by decide) (by decide)
    (by decide) (by decide)

end Ecommerce
